import Mathlib

/-!
Verification of the core reactive model of the `thothui` todo application
(`src/main.rs`).

The program is a GPUI application.  Its non-rendering core consists of three
entity types (`TodoItem`, `TodoList`, `TodoApp`), the event handlers wired up
in `TodoList::add_item` and `TodoApp::new`, and the click listeners installed
in the two `render` functions.  We give a shallow embedding:

* GPUI entities become plain records; an `Entity<T>` handle is modelled as a
  natural number (`handle`) stored alongside the entity's state, and the
  entity-allocation performed by `cx.new` is modelled by a monotone fresh
  counter threaded through the world state (`TodoApp.counter`).
* `Uuid::new_v4()` (the item id generator) is likewise modelled as a draw
  from the same fresh counter: the code relies on v4 uuids being
  collision-free for the process lifetime, which the fresh counter realises
  exactly.
* Each closure installed with `cx.listener` / `cx.subscribe` /
  `cx.subscribe_in` in the source becomes a Lean function on the state it
  mutates; an entity-level mutation (e.g. the checkbox listener on a
  `TodoItem`) is lifted to the world by updating the list entry carrying the
  mutated handle, which is GPUI's `Entity::update` at that handle.
* The single-threaded event loop becomes a step function over a trace of
  user-level events (`UserEvent`), each step running the corresponding
  source handler to completion.
-/

/-- Embeds `struct TodoItem` (src/main.rs lines 14-18): `id`, `title`,
`completed`, plus the identity of the GPUI `Entity<TodoItem>` slot holding it
(`handle`), which the source compares with `*i != e` in the delete reaction. -/
structure TodoItem where
  handle : Nat
  id : Nat
  title : String
  completed : Bool
deriving Repr, DecidableEq

/-- Embeds `TodoItem::new` (lines 24-30) together with the `cx.new` allocation
in `TodoList::add_item` (line 100): the fresh counter value supplies both the
entity handle and the uuid (`Uuid::new_v4().to_string()`), and `completed`
starts `false`. -/
def TodoItem.new (fresh : Nat) (title : String) : TodoItem :=
  { handle := fresh, id := fresh, title := title, completed := false }

/-- Embeds the checkbox `on_click` listener (lines 49-52):
`this.completed = e`. -/
def TodoItem.toggleClick (this : TodoItem) (e : Bool) : TodoItem :=
  { this with completed := e }

/-- Embeds `struct TodoList` (lines 84-88): the ordered `items` vector and the
`_subscriptions` vector; a `Subscription` is represented by the handle of the
item it listens to.  (`_selected_index` is never read or written outside
`new`, so it is omitted.) -/
structure TodoList where
  items : List TodoItem
  subscriptions : List Nat
deriving Repr, DecidableEq

/-- Embeds `TodoList::new` (lines 91-97). -/
def TodoList.new : TodoList :=
  { items := [], subscriptions := [] }

/-- Embeds the `DeleteTodo` subscription reaction created in
`TodoList::add_item` (lines 103-106): `this.items.retain(|i| *i != e)`, where
`e` is the emitting `Entity<TodoItem>`; `_subscriptions` is not touched. -/
def TodoList.deleteTodo (this : TodoList) (e : Nat) : TodoList :=
  { this with items := this.items.filter (fun i => i.handle ≠ e) }

/-- Embeds `TodoList::add_item` (lines 99-112): allocate a fresh item entity,
read back its id, subscribe to its `DeleteTodo` signal, push the handle onto
`items` and the subscription onto `_subscriptions`, and return the id.
`fresh` is the world's entity/uuid counter (see module comment). -/
def TodoList.add_item (this : TodoList) (fresh : Nat) (title : String) :
    TodoList × Nat :=
  let item := TodoItem.new fresh title
  let id := item.id
  ({ items := this.items ++ [item],
     subscriptions := this.subscriptions ++ [item.handle] }, id)

/-- Lifts an entity-level mutation of the `TodoItem` at handle `h` to the
world: GPUI's `Entity::update` applied at that handle (every other slot is
untouched). -/
def TodoList.updateItem (this : TodoList) (h : Nat) (f : TodoItem → TodoItem) :
    TodoList :=
  { this with items := this.items.map (fun i => if i.handle = h then f i else i) }

/-- The `items.find` a handle resolves to: first entry carrying handle `h`.
Reachable lists have pairwise-distinct handles, so this is the entity state
the handle addresses. -/
def TodoList.findItem (this : TodoList) (h : Nat) : Option TodoItem :=
  this.items.find? (fun i => i.handle == h)

/-- Embeds the `value` of the `InputState` entity (the editor).  Only its
text content is relevant to the core: the source reads it with
`input_state.read(cx).value()` and writes it with `set_value`. -/
structure InputState where
  value : String
deriving Repr, DecidableEq

/-- Embeds `struct TodoApp` (lines 115-121): the owned `TodoList` and
`InputState` entities, the cached `editing_text` field, and the fresh-entity
counter of the surrounding GPUI context. -/
structure TodoApp where
  todo_list : TodoList
  input_state : InputState
  editing_text : String
  counter : Nat
deriving Repr, DecidableEq

/-- Embeds the state built by `TodoApp::new` (lines 124-169): empty list,
empty input, `editing_text: SharedString::new("")`. -/
def TodoApp.init : TodoApp :=
  { todo_list := TodoList.new, input_state := { value := "" },
    editing_text := "", counter := 0 }

/-- Embeds the `InputEvent::Change` arm of the subscription in `TodoApp::new`
(lines 139-143): `this.editing_text = input_state.read(cx).value()`. -/
def TodoApp.onChange (this : TodoApp) : TodoApp :=
  { this with editing_text := this.input_state.value }

/-- Embeds the `InputEvent::PressEnter { secondary }` arm (lines 144-157):
when `secondary` is false, `todo_list.add_item(editing_text)`, then
`editing_text = ""` and `input_state.set_value("")`; otherwise nothing. -/
def TodoApp.onPressEnter (this : TodoApp) (secondary : Bool) : TodoApp :=
  if !secondary then
    { this with
      todo_list := (this.todo_list.add_item this.counter this.editing_text).1,
      counter := this.counter + 1,
      editing_text := "",
      input_state := { value := "" } }
  else this

/-- Embeds the "add" button `on_click` listener in `TodoApp::render`
(lines 197-209): `todo_list.add_item(editing_text)`, then `editing_text = ""`
and `input_state.set_value("")`.  Translated separately from `onPressEnter`
because it is a second, textually distinct code path in the source. -/
def TodoApp.onAddClick (this : TodoApp) : TodoApp :=
  { this with
    todo_list := (this.todo_list.add_item this.counter this.editing_text).1,
    counter := this.counter + 1,
    editing_text := "",
    input_state := { value := "" } }

/-- A user-level event delivered by the toolkit to the core:
* `edit v` — the user edits the input so its value becomes `v`, after which
  the `InputState` emits `InputEvent::Change` and the app's subscription runs;
* `pressEnter sec` — the input emits `InputEvent::PressEnter` with the given
  `secondary` flag;
* `clickAdd` — the "add" button's `on_click` fires;
* `toggle h e` — the checkbox of the item entity at handle `h` fires with
  checked state `e` (lines 49-52);
* `delete h` — the delete button of the item entity at handle `h` fires,
  emitting `DeleteTodo` (lines 77-79), whose subscriber is the list's
  removal reaction (lines 103-106). -/
inductive UserEvent where
  | edit (v : String)
  | pressEnter (secondary : Bool)
  | clickAdd
  | toggle (h : Nat) (e : Bool)
  | delete (h : Nat)
deriving Repr, DecidableEq

/-- One step of the single-threaded event loop: deliver one user event and
run the source's handler for it to completion. -/
def TodoApp.step (this : TodoApp) : UserEvent → TodoApp
  | .edit v => TodoApp.onChange { this with input_state := { value := v } }
  | .pressEnter sec => this.onPressEnter sec
  | .clickAdd => this.onAddClick
  | .toggle h e =>
      { this with todo_list := this.todo_list.updateItem h (fun i => i.toggleClick e) }
  | .delete h =>
      { this with todo_list := this.todo_list.deleteTodo h }

/-- The state after the app processes a trace of user events from startup. -/
def TodoApp.run (es : List UserEvent) : TodoApp :=
  es.foldl TodoApp.step TodoApp.init

/-- Well-formedness of a list state relative to the fresh counter: every item
handle was allocated below the counter, and handles are pairwise distinct
(each `cx.new` yields a distinct entity). -/
def TodoList.wf (this : TodoList) (counter : Nat) : Prop :=
  (∀ i ∈ this.items, i.handle < counter) ∧
    this.items.Pairwise (fun a b => a.handle ≠ b.handle)

/-- Well-formedness of an app state: its list is well formed with respect to
its counter, and the cached `editing_text` agrees with the input's value. -/
def TodoApp.wf (this : TodoApp) : Prop :=
  this.todo_list.wf this.counter ∧ this.editing_text = this.input_state.value

/-- Runs a sequence of `add_item` calls against a list, threading the fresh
counter exactly as the app's context does (one allocation per call), and
collecting the returned ids in call order. -/
def TodoList.addAll : TodoList → Nat → List String → TodoList × List Nat
  | l, _, [] => (l, [])
  | l, fresh, t :: ts =>
      let r := l.add_item fresh t
      let rest := TodoList.addAll r.1 (fresh + 1) ts
      (rest.1, r.2 :: rest.2)

/-- A concrete app state with a pending draft, used to instantiate theorems
with hypotheses. -/
def sampleApp : TodoApp :=
  { todo_list := TodoList.new, input_state := { value := "buy milk" },
    editing_text := "buy milk", counter := 0 }

/-- A concrete app state whose cached `editing_text` disagrees with the
editor's value; such a `TodoApp` value is well typed because the struct
really carries the duplicate field. -/
def staleApp : TodoApp :=
  { todo_list := TodoList.new, input_state := { value := "fresh" },
    editing_text := "stale", counter := 0 }

/-- Concrete items and a concrete two-item list used to instantiate frame
theorems. -/
def sampleItemA : TodoItem :=
  { handle := 0, id := 0, title := "alpha", completed := false }

/-- Second concrete item. -/
def sampleItemB : TodoItem :=
  { handle := 1, id := 1, title := "beta", completed := true }

/-- A concrete two-item list. -/
def sampleList : TodoList :=
  { items := [sampleItemA, sampleItemB], subscriptions := [0, 1] }

/-- A concrete app state owning `sampleList`. -/
def sampleApp2 : TodoApp :=
  { todo_list := sampleList, input_state := { value := "" },
    editing_text := "", counter := 2 }

/-! ## Generic list helpers -/

/-- A map that fixes every element of a list is the identity on it. -/
theorem List.map_eq_self_of_forall {α : Type} (l : List α) (f : α → α)
    (h : ∀ a ∈ l, f a = a) : l.map f = l := by
  induction l with
  | nil => rfl
  | cons a l ih =>
      simp only [List.map_cons, h a (List.mem_cons_self a l)]
      rw [ih fun a ha => h a (List.mem_cons_of_mem _ ha)]

/-- `find?` looks only at the first list when it already succeeds there. -/
theorem List.find?_append_of_some {α : Type} (l₁ l₂ : List α) (p : α → Bool) (a : α)
    (h : l₁.find? p = some a) : (l₁ ++ l₂).find? p = some a := by
  rw [List.find?_append, h]
  rfl

/-- Filtering by a predicate implied by the search predicate commutes with
`find?`. -/
theorem List.find?_filter_of_imp {α : Type} (l : List α) (p q : α → Bool)
    (h : ∀ a, p a = true → q a = true) : (l.filter q).find? p = l.find? p := by
  induction l with
  | nil => rfl
  | cons a l ih =>
      rcases hq : q a with _ | _
      · have hp : p a = false := by
          rcases hpa : p a with _ | _
          · rfl
          · rw [h a hpa] at hq
            exact absurd hq (by simp)
        rw [List.filter_cons_of_neg (by simp [hq]), List.find?_cons_of_neg _ (by simp [hp]), ih]
      · rcases hp : p a with _ | _
        · rw [List.filter_cons_of_pos (by simp [hq]), List.find?_cons_of_neg _ (by simp [hp]),
            List.find?_cons_of_neg _ (by simp [hp]), ih]
        · rw [List.filter_cons_of_pos (by simp [hq]), List.find?_cons_of_pos _ (by simp [hp]),
            List.find?_cons_of_pos _ (by simp [hp])]

/-- `find?` over a map by a function that preserves the search predicate. -/
theorem List.find?_map_pred {α : Type} (l : List α) (f : α → α) (p : α → Bool)
    (h : ∀ a, p (f a) = p a) : (l.map f).find? p = (l.find? p).map f := by
  induction l with
  | nil => rfl
  | cons a l ih =>
      rcases hp : p a with _ | _
      · rw [List.map_cons, List.find?_cons_of_neg _ (by simp [h, hp]),
          List.find?_cons_of_neg _ (by simp [hp]), ih]
      · rw [List.map_cons, List.find?_cons_of_pos _ (by simp [h, hp]),
          List.find?_cons_of_pos _ (by simp [hp])]
        rfl

/-! ## Well-formedness is preserved by every handler -/

/-- The empty list is well formed for any counter. -/
theorem TodoList.wf_new (c : Nat) : TodoList.new.wf c := by
  constructor
  · intro i hi
    simp [TodoList.new] at hi
  · simp [TodoList.new]

/-- `add_item` preserves well-formedness once the counter advances past the
allocated handle. -/
theorem TodoList.wf_add_item (l : TodoList) (c : Nat) (t : String) (hl : l.wf c) :
    ((l.add_item c t).1).wf (c + 1) := by
  obtain ⟨hbound, hnd⟩ := hl
  constructor
  · intro i hi
    simp only [TodoList.add_item, TodoItem.new, List.mem_append, List.mem_singleton] at hi
    rcases hi with hi | rfl
    · exact Nat.lt_succ_of_lt (hbound i hi)
    · exact Nat.lt_succ_self c
  · simp only [TodoList.add_item, TodoItem.new]
    rw [List.pairwise_append]
    refine ⟨hnd, List.pairwise_singleton _ _, ?_⟩
    intro p hp q hq
    simp only [List.mem_singleton] at hq
    subst hq
    exact Nat.ne_of_lt (hbound p hp)

/-- The delete reaction preserves well-formedness. -/
theorem TodoList.wf_deleteTodo (l : TodoList) (c h : Nat) (hl : l.wf c) :
    (l.deleteTodo h).wf c := by
  obtain ⟨hbound, hnd⟩ := hl
  constructor
  · intro i hi
    exact hbound i (List.mem_of_mem_filter hi)
  · exact hnd.filter _

/-- Mutating the item at one handle preserves well-formedness whenever the
mutation keeps the item's handle. -/
theorem TodoList.wf_updateItem (l : TodoList) (c h : Nat) (f : TodoItem → TodoItem)
    (hf : ∀ i, (f i).handle = i.handle) (hl : l.wf c) : (l.updateItem h f).wf c := by
  obtain ⟨hbound, hnd⟩ := hl
  have hg : ∀ i : TodoItem, ((if i.handle = h then f i else i).handle) = i.handle := by
    intro i
    by_cases hih : i.handle = h
    · simp [hih, hf]
    · simp [hih]
  constructor
  · intro i hi
    simp only [TodoList.updateItem, List.mem_map] at hi
    obtain ⟨j, hj, rfl⟩ := hi
    rw [hg j]
    exact hbound j hj
  · simp only [TodoList.updateItem]
    rw [List.pairwise_map]
    refine hnd.imp_of_mem ?_
    intro p q hp hq hpq
    rw [hg p, hg q]
    exact hpq

/-- The startup state built by `TodoApp::new` is well formed. -/
theorem TodoApp.wf_init : TodoApp.init.wf :=
  ⟨TodoList.wf_new 0, rfl⟩

/-- Every event handler preserves well-formedness: handles stay fresh and
pairwise distinct, and the cached `editing_text` stays equal to the editor's
value. -/
theorem TodoApp.wf_step (s : TodoApp) (ev : UserEvent) (hs : s.wf) : (s.step ev).wf := by
  obtain ⟨hlist, hsync⟩ := hs
  cases ev with
  | edit v =>
      exact ⟨hlist, rfl⟩
  | pressEnter sec =>
      cases sec with
      | true =>
          exact ⟨hlist, hsync⟩
      | false =>
          exact ⟨TodoList.wf_add_item _ _ _ hlist, rfl⟩
  | clickAdd =>
      exact ⟨TodoList.wf_add_item _ _ _ hlist, rfl⟩
  | toggle h e =>
      exact ⟨TodoList.wf_updateItem _ _ _ _ (fun i => rfl) hlist, hsync⟩
  | delete h =>
      exact ⟨TodoList.wf_deleteTodo _ _ _ hlist, hsync⟩

/-- Every state reachable from startup is well formed. -/
theorem TodoApp.wf_run (es : List UserEvent) : (TodoApp.run es).wf := by
  suffices h : ∀ (es : List UserEvent) (s : TodoApp), s.wf → (es.foldl TodoApp.step s).wf by
    exact h es TodoApp.init TodoApp.wf_init
  intro es
  induction es with
  | nil => intro s hs; exact hs
  | cons e es ih =>
      intro s hs
      exact ih (s.step e) (TodoApp.wf_step s e hs)

/-! ## Shared operation-level lemmas -/

/-- What either commit path does when the cache agrees with the editor:
append one item titled with the editor's value, clear both texts. -/
theorem TodoApp.commit_spec (s : TodoApp) (hsync : s.editing_text = s.input_state.value) :
    (s.onPressEnter false).todo_list.items =
        s.todo_list.items ++
          [{ handle := s.counter, id := s.counter,
             title := s.input_state.value, completed := false }] ∧
      (s.onPressEnter false).editing_text = "" ∧
      (s.onPressEnter false).input_state.value = "" := by
  refine ⟨?_, rfl, rfl⟩
  simp [TodoApp.onPressEnter, TodoList.add_item, TodoItem.new, hsync]

/-- The delete reaction on a list with pairwise-distinct handles removes
exactly the targeted entry and keeps everything else, fields and order
included. -/
theorem TodoList.deleteTodo_of_split (l : TodoList) (a b : List TodoItem) (x : TodoItem)
    (hsplit : l.items = a ++ x :: b)
    (hnd : l.items.Pairwise (fun p q => p.handle ≠ q.handle)) :
    (l.deleteTodo x.handle).items = a ++ b := by
  rw [hsplit, List.pairwise_append] at hnd
  obtain ⟨hA, hXB, hAB⟩ := hnd
  rw [List.pairwise_cons] at hXB
  obtain ⟨hxb, hB⟩ := hXB
  have ha : ∀ p ∈ a, (decide (p.handle ≠ x.handle)) = true := fun p hp => by
    simpa using hAB p hp x (List.mem_cons_self x b)
  have hb : ∀ q ∈ b, (decide (q.handle ≠ x.handle)) = true := fun q hq => by
    simpa using Ne.symm (hxb q hq)
  simp only [TodoList.deleteTodo]
  rw [hsplit, List.filter_append, List.filter_cons]
  rw [List.filter_eq_self.mpr ha, List.filter_eq_self.mpr hb]
  simp

/-- The checkbox mutation at one handle, on a list with pairwise-distinct
handles, rewrites exactly the targeted entry's `completed` flag and keeps
every other entry, fields and order included. -/
theorem TodoList.updateItem_toggle_of_split (l : TodoList) (a b : List TodoItem)
    (x : TodoItem) (e : Bool)
    (hsplit : l.items = a ++ x :: b)
    (hnd : l.items.Pairwise (fun p q => p.handle ≠ q.handle)) :
    (l.updateItem x.handle (fun i => i.toggleClick e)).items =
      a ++ { x with completed := e } :: b := by
  rw [hsplit, List.pairwise_append] at hnd
  obtain ⟨hA, hXB, hAB⟩ := hnd
  rw [List.pairwise_cons] at hXB
  obtain ⟨hxb, hB⟩ := hXB
  simp only [TodoList.updateItem]
  rw [hsplit, List.map_append, List.map_cons, if_pos rfl]
  rw [List.map_eq_self_of_forall a _
        (fun p hp => if_neg (hAB p hp x (List.mem_cons_self x b))),
      List.map_eq_self_of_forall b _
        (fun q hq => if_neg (Ne.symm (hxb q hq)))]
  rfl

/-- Appending a fresh item does not change what an already-resolving handle
resolves to. -/
theorem TodoList.findItem_add_item (l : TodoList) (c : Nat) (t : String) (h : Nat)
    (x : TodoItem) (hx : l.findItem h = some x) :
    ((l.add_item c t).1).findItem h = some x := by
  simp only [TodoList.findItem, TodoList.add_item] at hx ⊢
  exact List.find?_append_of_some _ _ _ _ hx

/-- The delete reaction never changes the state an independently resolving
handle addresses. -/
theorem TodoList.findItem_deleteTodo (l : TodoList) (hdl h : Nat) (x y : TodoItem)
    (hx : l.findItem h = some x) (hy : (l.deleteTodo hdl).findItem h = some y) :
    y = x := by
  by_cases hcase : h = hdl
  · exfalso
    subst hcase
    have hmem := List.mem_of_find?_eq_some hy
    have hpy := List.find?_some hy
    simp only [TodoList.deleteTodo, List.mem_filter] at hmem
    obtain ⟨-, hq⟩ := hmem
    simp only [beq_iff_eq] at hpy
    simp only [ne_eq, decide_eq_true_eq] at hq
    exact hq hpy
  · simp only [TodoList.findItem, TodoList.deleteTodo] at hx hy
    rw [List.find?_filter_of_imp] at hy
    · rw [hx] at hy
      exact (Option.some_inj.mp hy).symm
    · intro i hi
      simp only [beq_iff_eq] at hi
      simp only [ne_eq, decide_eq_true_eq]
      rw [hi]
      exact fun hc => hcase hc

/-- The checkbox mutation preserves the title of every item every handle
resolves to. -/
theorem TodoList.findItem_toggle (l : TodoList) (ht h : Nat) (e : Bool) (x y : TodoItem)
    (hx : l.findItem h = some x)
    (hy : (l.updateItem ht (fun i => i.toggleClick e)).findItem h = some y) :
    y.title = x.title := by
  have hpres : ∀ i : TodoItem,
      ((if i.handle = ht then i.toggleClick e else i).handle == h) = (i.handle == h) := by
    intro i
    by_cases hih : i.handle = ht
    · simp [hih, TodoItem.toggleClick]
    · simp [hih]
  simp only [TodoList.findItem, TodoList.updateItem] at hx hy
  rw [List.find?_map_pred _ _ _ hpres, hx] at hy
  simp only [Option.map_some'] at hy
  rw [← Option.some_inj.mp hy]
  by_cases hxh : x.handle = ht
  · simp [hxh, TodoItem.toggleClick]
  · simp [hxh]

/-- Spelling out `addAll`: the items appended by a sequence of `add_item`
calls carry consecutive fresh handles, the given titles in call order, and
`completed = false`; existing items are untouched; the returned ids are the
consecutive fresh values in call order. -/
theorem TodoList.addAll_spec (ts : List String) : ∀ (l : TodoList) (fresh : Nat),
    (TodoList.addAll l fresh ts).1.items =
        l.items ++ (List.range' fresh ts.length).zipWith TodoItem.new ts ∧
      (TodoList.addAll l fresh ts).2 = List.range' fresh ts.length := by
  induction ts with
  | nil =>
      intro l fresh
      simp [TodoList.addAll]
  | cons t ts ih =>
      intro l fresh
      obtain ⟨h1, h2⟩ := ih (l.add_item fresh t).1 (fresh + 1)
      constructor
      · simp only [TodoList.addAll, h1]
        simp only [List.length_cons]
        rw [List.range'_succ]
        simp [TodoList.add_item, List.append_assoc]
      · simp only [TodoList.addAll, h2]
        simp only [List.length_cons]
        rw [List.range'_succ]
        simp [TodoList.add_item, TodoItem.new]

/-- The titles of the items built by zipping fresh handles with titles are
exactly those titles (when the zipped lists have equal length). -/
theorem titles_zipWith_new (rs : List Nat) (ts : List String) (h : rs.length = ts.length) :
    (rs.zipWith TodoItem.new ts).map TodoItem.title = ts := by
  induction rs generalizing ts with
  | nil =>
      cases ts with
      | nil => rfl
      | cons t ts => simp at h
  | cons r rs ih =>
      cases ts with
      | nil => simp at h
      | cons t ts => simp [TodoItem.new, ih ts (by simpa using h)]

/-! ## The claims -/

/-- Claim C1: processing an Enter-key submit (`InputEvent::PressEnter` with
`secondary = false`) appends exactly one `TodoItem` whose `title` is exactly
the editor's text — also when that text is empty, since no validation
exists — and resets both the editor's value and its cached copy to empty. -/
theorem pressEnter_appends_editor_text (s : TodoApp)
    (hsync : s.editing_text = s.input_state.value) :
    (s.onPressEnter false).todo_list.items =
        s.todo_list.items ++
          [{ handle := s.counter, id := s.counter,
             title := s.input_state.value, completed := false }] ∧
      (s.onPressEnter false).editing_text = "" ∧
      (s.onPressEnter false).input_state.value = "" :=
  TodoApp.commit_spec s hsync

/-- Witness for C1 at the concrete state `sampleApp`. -/
theorem pressEnter_appends_editor_text_witness :
    sampleApp.editing_text = sampleApp.input_state.value ∧
      ((sampleApp.onPressEnter false).todo_list.items =
          sampleApp.todo_list.items ++
            [{ handle := sampleApp.counter, id := sampleApp.counter,
               title := sampleApp.input_state.value, completed := false }] ∧
        (sampleApp.onPressEnter false).editing_text = "" ∧
        (sampleApp.onPressEnter false).input_state.value = "") :=
  ⟨rfl, pressEnter_appends_editor_text sampleApp rfl⟩

/-- Claim C2: a sequence of `add_item` calls appends its items at the end in
call order — the new entries carry the given titles in order and consecutive
fresh handles — and the returned ids are pairwise distinct. -/
theorem add_item_sequence_order_and_unique_ids (l : TodoList) (fresh : Nat)
    (ts : List String) :
    (TodoList.addAll l fresh ts).1.items =
        l.items ++ (List.range' fresh ts.length).zipWith TodoItem.new ts ∧
      ((List.range' fresh ts.length).zipWith TodoItem.new ts).map TodoItem.title = ts ∧
      (TodoList.addAll l fresh ts).2 = List.range' fresh ts.length ∧
      (TodoList.addAll l fresh ts).2.Nodup := by
  obtain ⟨h1, h2⟩ := TodoList.addAll_spec ts l fresh
  refine ⟨h1, titles_zipWith_new _ _ (by simp), h2, ?_⟩
  rw [h2]
  exact List.nodup_range' _ _

/-- Claim C3: processing an Item's `DeleteTodo` signal removes exactly that
Item's entry from `items`; every other entry — handle, id, title, completed
flag — and the relative order of the remaining entries are unchanged. -/
theorem delete_removes_exactly_target (l : TodoList) (a b : List TodoItem) (x : TodoItem)
    (hsplit : l.items = a ++ x :: b)
    (hnd : l.items.Pairwise (fun p q => p.handle ≠ q.handle)) :
    (l.deleteTodo x.handle).items = a ++ b :=
  TodoList.deleteTodo_of_split l a b x hsplit hnd

/-- Witness for C3 on the concrete two-item list `sampleList`. -/
theorem delete_removes_exactly_target_witness :
    sampleList.items = [] ++ sampleItemA :: [sampleItemB] ∧
      sampleList.items.Pairwise (fun p q => p.handle ≠ q.handle) ∧
      (sampleList.deleteTodo sampleItemA.handle).items = [] ++ [sampleItemB] :=
  ⟨rfl, by decide,
    delete_removes_exactly_target sampleList [] [sampleItemB] sampleItemA rfl (by decide)⟩

/-- Claim C4: along any event trace, processing a commit appends exactly one
item whose title is the editor's value at the instant of commit, and
afterwards both the editor's value and its cache are empty; since the cache
equals the editor's value in every reachable state, no edit delivered before
the commit is lost and no later edit leaks into the committed title. -/
theorem commit_title_is_text_at_instant (es : List UserEvent) :
    ((TodoApp.run es).step (UserEvent.pressEnter false)).todo_list.items =
        (TodoApp.run es).todo_list.items ++
          [{ handle := (TodoApp.run es).counter, id := (TodoApp.run es).counter,
             title := (TodoApp.run es).input_state.value, completed := false }] ∧
      ((TodoApp.run es).step (UserEvent.pressEnter false)).editing_text = "" ∧
      ((TodoApp.run es).step (UserEvent.pressEnter false)).input_state.value = "" :=
  TodoApp.commit_spec (TodoApp.run es) (TodoApp.wf_run es).2

/-- Claim C5: the Enter-key commit handler and the "add" button's `on_click`
listener perform the identical state transition from every starting state. -/
theorem enter_and_button_paths_identical (s : TodoApp) :
    s.onPressEnter false = s.onAddClick := rfl

/-- Claim C6 counterexample: `TodoApp` does hold a duplicate copy of the
editor's text — its `editing_text` field.  In the concrete state `staleApp`
the cached field and the editor's value differ, and the commit path appends
the cached text rather than a value read through the editor's handle. -/
theorem app_cached_text_counterexample :
    staleApp.editing_text ≠ staleApp.input_state.value ∧
      (staleApp.onAddClick).todo_list.items.map TodoItem.title = ["stale"] ∧
      staleApp.input_state.value = "fresh" := by
  refine ⟨by decide, rfl, rfl⟩

/-- Claim C6 amended: `TodoApp` caches the editor's text in `editing_text`,
which the `InputEvent::Change` handler keeps coherent — in every state
reachable from startup the cache equals the editor's value, so the commit
paths (which read the cache) never commit a stale text. -/
theorem editing_text_cache_coherent (es : List UserEvent) :
    (TodoApp.run es).editing_text = (TodoApp.run es).input_state.value :=
  (TodoApp.wf_run es).2

/-- Claim C7: the checkbox toggle at item X's handle rewrites only X's
`completed` flag (X's handle, id and title are kept); every other item's
entry, all fields included, and the order of entries are unchanged. -/
theorem toggle_changes_only_target (l : TodoList) (a b : List TodoItem) (x : TodoItem)
    (e : Bool)
    (hsplit : l.items = a ++ x :: b)
    (hnd : l.items.Pairwise (fun p q => p.handle ≠ q.handle)) :
    (l.updateItem x.handle (fun i => i.toggleClick e)).items =
      a ++ { x with completed := e } :: b :=
  TodoList.updateItem_toggle_of_split l a b x e hsplit hnd

/-- Witness for C7 on the concrete two-item list `sampleList`. -/
theorem toggle_changes_only_target_witness :
    sampleList.items = [sampleItemA] ++ sampleItemB :: [] ∧
      sampleList.items.Pairwise (fun p q => p.handle ≠ q.handle) ∧
      (sampleList.updateItem sampleItemB.handle (fun i => i.toggleClick false)).items =
        [sampleItemA] ++ { sampleItemB with completed := false } :: [] :=
  ⟨rfl, by decide,
    toggle_changes_only_target sampleList [sampleItemA] [] sampleItemB false rfl (by decide)⟩

/-- Claim C8 counterexample: after one `add_item` and the delete reaction for
that item, `items` is empty but the `_subscriptions` entry created for the
item is still present — the reaction does not release the subscription. -/
theorem delete_keeps_subscription_counterexample :
    ((TodoList.new.add_item 0 "a").1.deleteTodo 0).items = [] ∧
      ((TodoList.new.add_item 0 "a").1.deleteTodo 0).subscriptions = [0] :=
  ⟨rfl, rfl⟩

/-- Claim C8 amended: the delete reaction removes exactly the item's entry
from `items` and notifies observers, but it releases no subscription:
`_subscriptions` is left unchanged (tokens are dropped only when the
`TodoList` itself is dropped). -/
theorem delete_excises_item_but_keeps_subscriptions (l : TodoList) (a b : List TodoItem)
    (x : TodoItem)
    (hsplit : l.items = a ++ x :: b)
    (hnd : l.items.Pairwise (fun p q => p.handle ≠ q.handle)) :
    (l.deleteTodo x.handle).items = a ++ b ∧
      (l.deleteTodo x.handle).subscriptions = l.subscriptions :=
  ⟨TodoList.deleteTodo_of_split l a b x hsplit hnd, rfl⟩

/-- Witness for the amended C8 on the concrete two-item list `sampleList`. -/
theorem delete_excises_item_but_keeps_subscriptions_witness :
    sampleList.items = [sampleItemA] ++ sampleItemB :: [] ∧
      sampleList.items.Pairwise (fun p q => p.handle ≠ q.handle) ∧
      ((sampleList.deleteTodo sampleItemB.handle).items = [sampleItemA] ++ [] ∧
        (sampleList.deleteTodo sampleItemB.handle).subscriptions = sampleList.subscriptions) :=
  ⟨rfl, by decide,
    delete_excises_item_but_keeps_subscriptions sampleList [sampleItemA] [] sampleItemB rfl
      (by decide)⟩

/-- Claim C10: titles are immutable after creation — across every event the
program handles (edits, both commit paths, checkbox toggles, delete
signals), whatever item state a handle resolves to keeps its title; no
set-title operation exists among the handlers. -/
theorem titles_immutable (s : TodoApp) (ev : UserEvent) (h : Nat) (x y : TodoItem)
    (hx : s.todo_list.findItem h = some x)
    (hy : (s.step ev).todo_list.findItem h = some y) :
    y.title = x.title := by
  cases ev with
  | edit v =>
      have hxy : s.todo_list.findItem h = some y := hy
      rw [hx] at hxy
      rw [Option.some_inj.mp hxy]
  | pressEnter sec =>
      cases sec with
      | true =>
          have hxy : s.todo_list.findItem h = some y := hy
          rw [hx] at hxy
          rw [Option.some_inj.mp hxy]
      | false =>
          have h2 := TodoList.findItem_add_item s.todo_list s.counter s.editing_text h x hx
          have hxy : ((s.todo_list.add_item s.counter s.editing_text).1).findItem h = some y := hy
          rw [h2] at hxy
          rw [Option.some_inj.mp hxy]
  | clickAdd =>
      have h2 := TodoList.findItem_add_item s.todo_list s.counter s.editing_text h x hx
      have hxy : ((s.todo_list.add_item s.counter s.editing_text).1).findItem h = some y := hy
      rw [h2] at hxy
      rw [Option.some_inj.mp hxy]
  | toggle ht e =>
      exact TodoList.findItem_toggle s.todo_list ht h e x y hx hy
  | delete hd =>
      rw [TodoList.findItem_deleteTodo s.todo_list hd h x y hx hy]

/-- Witness for C10: toggling the first sample item preserves its title. -/
theorem titles_immutable_witness :
    sampleApp2.todo_list.findItem 0 = some sampleItemA ∧
      (sampleApp2.step (UserEvent.toggle 0 true)).todo_list.findItem 0 =
        some { sampleItemA with completed := true } ∧
      ({ sampleItemA with completed := true } : TodoItem).title = sampleItemA.title :=
  ⟨rfl, rfl,
    titles_immutable sampleApp2 (UserEvent.toggle 0 true) 0 sampleItemA
      { sampleItemA with completed := true } rfl rfl⟩
